import Mathlib

/-!
# Verification of the stereo-core-camera control layer

A shallow embedding, in Lean 4, of the parts of the
`stereo-core-camera` repository that its specification makes claims
about:

* `src/camera/controller.py` — class `StereoCamera` (focus stepping,
  shared exposure, synchronized capture);
* `src/storage/manager.py` — class `StorageManager` (path generation,
  sanitization, backup);
* `src/ui/enhanced_main_window.py` — class `EnhancedMainWindow` (the
  operator workflow state machine).

Python floats are embedded as `ℚ` (the claims only involve
order/clamping arithmetic, where the idealization is faithful);
machine side effects (hardware `set_controls`, file writes, USB
copies) are embedded as explicit success/failure parameters, and file
writes are additionally logged into the state so that "no files are
written" is expressible.
-/

namespace StereoCore
/-! ## Camera controller (`src/camera/controller.py`, class `StereoCamera`) -/

/-- The mutable state of `StereoCamera` (`controller.py`, `__init__`,
lines 63–94), restricted to the fields the exposure/focus/capture
operations read or write.  `exposure_range` is the configured
`[min, max]` pair; `focus_range` the continuous lens range. -/
structure StereoCamera where
  exposure_range : ℚ × ℚ
  manual_exposure_time : ℚ
  focus_steps : Int
  focus_step_0 : Int
  focus_step_1 : Int
  focus_range : ℚ × ℚ
  initialized : Bool
deriving Repr, DecidableEq

/-- Embeds `StereoCamera.adjust_focus` (`controller.py` lines 294–345).
Moves the addressed channel's discrete step by ±1, clamped to
`[0, focus_steps - 1]`; returns `false` (and leaves the state
unchanged) when the clamped step equals the current one, or when the
direction string is neither `"increase"` nor `"decrease"`.  The
hardware `set_controls` call (guarded by `_initialized` in the source,
its failure swallowed by an inner `except: pass`) has no effect on the
returned status or on the stored step, so it is not modelled. -/
def adjust_focus (st : StereoCamera) (direction : String) (camera_index : Int) :
    Bool × StereoCamera :=
  let current_step := if camera_index = 0 then st.focus_step_0 else st.focus_step_1
  let new_step? : Option Int :=
    if direction = "increase" then
      some (min (current_step + 1) (st.focus_steps - 1))
    else if direction = "decrease" then
      some (max (current_step - 1) 0)
    else
      none
  match new_step? with
  | none => (false, st)
  | some new_step =>
      if new_step = current_step then
        (false, st)
      else if camera_index = 0 then
        (true, { st with focus_step_0 := new_step })
      else
        (true, { st with focus_step_1 := new_step })

/-- Embeds `StereoCamera.adjust_exposure` (`controller.py` lines 252–292).
Returns `false` immediately when the controller is not initialized.
Otherwise multiplies (`"brighter"`) or divides (`"darker"`) the shared
exposure by 1.5, clamping to the configured range; any other direction
string returns `false` without mutating.  `hwFail` models the
hardware `set_controls` call raising (only possible with real
hardware): the source then returns `false`, but the exposure value has
already been mutated. -/
def adjust_exposure (st : StereoCamera) (direction : String) (hwFail : Bool) :
    Bool × StereoCamera :=
  if st.initialized = false then
    (false, st)
  else if direction = "brighter" then
    let e := min (st.manual_exposure_time * (3 / 2 : ℚ)) st.exposure_range.2
    (!hwFail, { st with manual_exposure_time := e })
  else if direction = "darker" then
    let e := max (st.manual_exposure_time / (3 / 2 : ℚ)) st.exposure_range.1
    (!hwFail, { st with manual_exposure_time := e })
  else
    (false, st)

/-- Embeds `StereoCamera.capture_stereo_pair` (`controller.py` lines 200–222).
Captures are modelled by their outcomes `r0, r1 : Except Unit ℕ`
(the per-channel `capture_array` call either returns an image,
abstracted as a `ℕ` identifier, or raises).  Uninitialized, or
either channel raising, yields `(none, none)`. -/
def capture_stereo_pair (st : StereoCamera) (r0 r1 : Except Unit ℕ) :
    Option ℕ × Option ℕ :=
  if st.initialized = false then
    (none, none)
  else
    match r0 with
    | .error _ => (none, none)
    | .ok i0 =>
        match r1 with
        | .error _ => (none, none)
        | .ok i1 => (some i0, some i1)

/-- Applying a whole sequence of `adjust_focus` calls
(direction string and camera index per call), keeping only the state. -/
def applyFocusSeq (ops : List (String × Int)) (st : StereoCamera) : StereoCamera :=
  ops.foldl (fun s op => (adjust_focus s op.1 op.2).2) st

/-- Both channels' focus steps lie within `[0, focus_steps - 1]`. -/
def focusInBounds (st : StereoCamera) : Prop :=
  0 ≤ st.focus_step_0 ∧ st.focus_step_0 ≤ st.focus_steps - 1 ∧
  0 ≤ st.focus_step_1 ∧ st.focus_step_1 ≤ st.focus_steps - 1

instance (st : StereoCamera) : Decidable (focusInBounds st) := by
  unfold focusInBounds; infer_instance

/-! ### Exposure state (claim C2) -/

/-- Applying a whole sequence of `adjust_exposure` calls (direction
string and hardware-failure flag per call), keeping only the state. -/
def applyExposureSeq (ops : List (String × Bool)) (st : StereoCamera) : StereoCamera :=
  ops.foldl (fun s op => (adjust_exposure s op.1 op.2).2) st

/-- Runs `n` repeated `"brighter"` calls (hardware applying cleanly). -/
def brighterIter : ℕ → StereoCamera → StereoCamera
  | 0, st => st
  | n + 1, st => (adjust_exposure (brighterIter n st) "brighter" false).2

/-- The shared exposure value lies within the configured range. -/
def exposureInRange (st : StereoCamera) : Prop :=
  st.exposure_range.1 ≤ st.manual_exposure_time ∧
  st.manual_exposure_time ≤ st.exposure_range.2

instance (st : StereoCamera) : Decidable (exposureInRange st) := by
  unfold exposureInRange; infer_instance

/-! ## Storage manager (`src/storage/manager.py`, class `StorageManager`) -/

/-- The `invalid_chars` string of `StorageManager._sanitize_filename`
(`manager.py` line 147): the characters replaced by underscore. -/
def invalid_chars : List Char := ['<', '>', ':', '"', '/', '\\', '|', '?', '*']

/-- Python `str.replace(a, b)` for single characters. -/
def replaceAll (a b : Char) (l : List Char) : List Char :=
  l.map fun x => if x = a then b else x

/-- The `for char in invalid_chars: filename = filename.replace(char, '_')`
loop of `_sanitize_filename`. -/
def replaceInvalid (l : List Char) : List Char :=
  invalid_chars.foldl (fun acc c => replaceAll c '_' acc) l

/-- Python `str.strip(' .')`: remove leading and trailing spaces and dots. -/
def stripSpaceDot (l : List Char) : List Char :=
  (((l.dropWhile fun c => c = ' ' || c = '.').reverse.dropWhile
    fun c => c = ' ' || c = '.')).reverse

/-- Embeds `StorageManager._sanitize_filename` (`manager.py` lines 142–158):
replace each of `invalid_chars` with `'_'`, strip leading/trailing
spaces and dots, substitute `"unnamed"` if the result is empty. -/
def sanitize_filename (filename : String) : String :=
  let cleaned := stripSpaceDot (replaceInvalid filename.toList)
  if cleaned.isEmpty then "unnamed" else String.mk cleaned

/-- Little-endian base-10 digits of `m`, with explicit fuel so that the
definition is structurally recursive (the fuel `m` itself always
suffices). -/
def natDigitsRev : ℕ → ℕ → List ℕ
  | 0, _ => []
  | fuel + 1, m => if m = 0 then [] else m % 10 :: natDigitsRev fuel (m / 10)

/-- One decimal digit as a character. -/
def digitChar (d : ℕ) : Char :=
  match d with
  | 0 => '0' | 1 => '1' | 2 => '2' | 3 => '3' | 4 => '4'
  | 5 => '5' | 6 => '6' | 7 => '7' | 8 => '8' | 9 => '9'
  | _ => '*'

/-- Big-endian decimal digit characters of `m` (empty for `m = 0`). -/
def natChars (m : ℕ) : List Char :=
  ((natDigitsRev m m).map digitChar).reverse

/-- Decimal digit characters of `m`, `['0']` for `0` (Python `str`). -/
def natStrChars (m : ℕ) : List Char :=
  if m = 0 then ['0'] else natChars m

/-- Exactly-two-digit rendering of `r < 100` (the fractional part of a
`%.2f` format). -/
def pad2Chars (r : ℕ) : List Char :=
  if r < 10 then '0' :: natStrChars r else natStrChars r

/-- The character list of Python `f"{x:.2f}"` for `x : ℚ`: `x` rounded
to a whole number of hundredths and printed with exactly two fractional
digits.  (The claims evaluate it only where `x * 100` is an integer, so
the choice of rounding mode for ties is immaterial.) -/
def format2Chars (x : ℚ) : List Char :=
  let n : ℤ := round (x * 100)
  let m := n.natAbs
  let l := natStrChars (m / 100) ++ '.' :: pad2Chars (m % 100)
  if n < 0 then '-' :: l else l

/-- Python `f"{x:.2f}"` as a `String`. -/
def format2 (x : ℚ) : String := String.mk (format2Chars x)

/-- Embeds `StorageManager.generate_file_path` (`manager.py` lines 121–140).
`internal_path` is the configured primary storage root; the Python
`Path` `/` join is rendered as string concatenation with `"/"` (exact
for the nonempty absolute roots the manager is configured with). -/
def generate_file_path (internal_path : String)
    (project_name borehole_name : String) (depth_from depth_to : ℚ) : String :=
  let project_clean := sanitize_filename project_name
  let borehole_clean := sanitize_filename borehole_name
  let from_str := String.mk (replaceAll '.' '_' (format2Chars depth_from))
  let to_str := String.mk (replaceAll '.' '_' (format2Chars depth_to))
  internal_path ++ "/" ++ project_clean ++ "/" ++ borehole_clean ++ "/" ++
    borehole_clean ++ "-" ++ from_str ++ "-" ++ to_str

/-- The result dictionary of `StorageManager.save_images_to_storage`
(`manager.py` lines 166–172). -/
structure SaveResults where
  internal_success : Bool
  usb_success : Bool
  internal_paths : List String
  usb_paths : List String
  errors : List String
deriving Repr, DecidableEq

/-- Destination of one backup copy (`manager.py` lines 196–199): the
first USB drive's mount point, the fixed `core_photos` subdirectory,
then the file's path relative to the primary root. -/
def usbDest (internal_path usb_path file : String) : String :=
  usb_path ++ "/core_photos/" ++ (file.drop (internal_path.length + 1))

/-- Embeds `StorageManager.save_images_to_storage` (`manager.py` lines
160–221).  The filesystem is abstracted by `exists?` (does a primary
file exist), `usb_drives` (the detected writable mounts, in order) and
`copyOk` (does `shutil.copy2` of a given primary file succeed).
Per-file backup failures append an error and continue with the
remaining files; `usb_success` is set only if at least one copy
landed; with no USB drive a single warning entry is appended. -/
def save_images_to_storage (internal_path : String) (exists? : String → Bool)
    (usb_drives : List String) (copyOk : String → Bool)
    (image_files : List String) (backup_to_usb : Bool) : SaveResults :=
  let internal_paths := image_files.filter exists?
  let notFoundErrors := (image_files.filter fun f => !exists? f).map
    fun f => "Internal file not found: " ++ f
  let internal_success := !internal_paths.isEmpty
  if backup_to_usb then
    match usb_drives with
    | [] =>
        { internal_success := internal_success, usb_success := false,
          internal_paths := internal_paths, usb_paths := [],
          errors := notFoundErrors ++ ["No USB drives available for backup"] }
    | usb_path :: _ =>
        let usb_paths := (internal_paths.filter copyOk).map
          (usbDest internal_path usb_path)
        let copyErrors := (internal_paths.filter fun f => !copyOk f).map
          fun f => "USB backup failed for " ++ f
        { internal_success := internal_success, usb_success := !usb_paths.isEmpty,
          internal_paths := internal_paths, usb_paths := usb_paths,
          errors := notFoundErrors ++ copyErrors }
  else
    { internal_success := internal_success, usb_success := false,
      internal_paths := internal_paths, usb_paths := [],
      errors := notFoundErrors }

/-! ## Numeric input parsing (models Python `float()`) -/

/-- Numeric value of a digit character. -/
def digitVal (c : Char) : ℕ := c.toNat - 48

/-- Value of a big-endian digit-character list (Horner evaluation). -/
def digitsVal (l : List Char) : ℕ :=
  l.foldl (fun a c => a * 10 + digitVal c) 0

/-- Magnitude part of a decimal literal: digits, optionally a dot and
further digits, with at least one digit overall. -/
def pyFloatMag (u : List Char) : Option ℚ :=
  let ip := u.takeWhile Char.isDigit
  let rest := u.dropWhile Char.isDigit
  match rest with
  | [] => if ip.isEmpty then none else some ((digitsVal ip : ℚ))
  | c :: fp =>
      if c = '.' ∧ fp.all Char.isDigit ∧ ¬(ip.isEmpty ∧ fp.isEmpty) then
        some ((digitsVal ip : ℚ) + (digitsVal fp : ℚ) / (10 : ℚ) ^ fp.length)
      else none

/-- Strip leading and trailing whitespace (Python `str.strip()`). -/
def trimWs (l : List Char) : List Char :=
  ((l.dropWhile Char.isWhitespace).reverse.dropWhile Char.isWhitespace).reverse

/-- Modelled from the builtin: Python `float(s)`, restricted to plain
decimal notation (optional sign, integer digits, optional fractional
part, surrounding whitespace).  Exponent notation, `inf`/`nan` and
digit-group underscores are outside the model; the claims only
exercise plain decimals and plainly non-numeric text. -/
def pyFloat? (s : String) : Option ℚ :=
  let t := trimWs s.toList
  if t.head? = some '-' then (pyFloatMag (t.drop 1)).map (fun q => -q)
  else if t.head? = some '+' then pyFloatMag (t.drop 1)
  else pyFloatMag t

/-! ## Workflow state machine (`src/ui/enhanced_main_window.py`,
class `EnhancedMainWindow`) -/

/-- The `WorkflowState` constants (`enhanced_main_window.py` lines 24–32). -/
inductive WorkflowState where
  | main_input
  | positioning
  | capturing
  | reviewing_cam1
  | reviewing_cam2
  | saving
  | focus_mode
deriving Repr, DecidableEq

/-- The configuration entries the workflow reads: the primary storage
root (`config['storage']['internal_path']`), the auto-advance segment
length (`config['ui']['default_segment_length']`) and the manual `+`/`-`
step (`config['ui']['segment_adjustment_step']`). -/
structure UiConfig where
  internal_path : String
  default_segment_length : ℚ
  segment_adjustment_step : ℚ
deriving Repr, DecidableEq

/-- The mutable `EnhancedMainWindow` fields the claims concern
(`enhanced_main_window.py` lines 66–101): the workflow state, the
current metadata values, the text of the four input fields, and the
pending captured pair.  `written_files` is a ghost log of every file
written to primary storage by `save_stereo_pair`, so that "no files
are written" is expressible. -/
structure MainWindow where
  workflow_state : WorkflowState
  current_project : String
  current_borehole : String
  current_depth_from : ℚ
  current_depth_to : ℚ
  project_text : String
  borehole_text : String
  depth_from_text : String
  depth_to_text : String
  captured_images : Option (ℕ × ℕ)
  written_files : List String
deriving Repr, DecidableEq

/-- The external outcomes one pass through the workflow can observe:
the camera's capture result, whether the JPEG save to primary storage
succeeds, the detected USB drives, and per-file backup-copy success. -/
structure WorkflowEnv where
  capture : Option (ℕ × ℕ)
  saveOk : Bool
  usb_drives : List String
  copyOk : String → Bool

/-- Embeds `EnhancedMainWindow._update_current_values` (lines 773–782): strip
the name fields; parse the two depth fields inside one `try`, so a
parse failure keeps the previous value(s) — if `depth_from` parses but
`depth_to` does not, only `depth_from` is updated. -/
def update_current_values (w : MainWindow) : MainWindow :=
  let w1 := { w with
    current_project := String.mk (trimWs w.project_text.toList),
    current_borehole := String.mk (trimWs w.borehole_text.toList) }
  match pyFloat? w1.depth_from_text with
  | none => w1
  | some f =>
      let w2 := { w1 with current_depth_from := f }
      match pyFloat? w2.depth_to_text with
      | none => w2
      | some t => { w2 with current_depth_to := t }

/-- Embeds `EnhancedMainWindow._validate_inputs` (lines 750–771): update the
current values, then reject an empty project name, an empty borehole
name, or `current_depth_from >= current_depth_to`. -/
def validate_inputs (w : MainWindow) : Bool × MainWindow :=
  let w1 := update_current_values w
  if w1.current_project = "" then (false, w1)
  else if w1.current_borehole = "" then (false, w1)
  else if w1.current_depth_to ≤ w1.current_depth_from then (false, w1)
  else (true, w1)

/-- Embeds `EnhancedMainWindow._advance_to_next_segment` (lines 659–672):
`new_from = current_depth_to`, `new_to = new_from + segment_length`,
written into the two depth input fields with `f"{v:.2f}"`; state
returns to `positioning`. -/
def advance_to_next_segment (cfg : UiConfig) (w : MainWindow) : MainWindow :=
  let new_from := w.current_depth_to
  let new_to := new_from + cfg.default_segment_length
  { w with
    depth_from_text := format2 new_from,
    depth_to_text := format2 new_to,
    workflow_state := .positioning }

/-- Embeds `EnhancedMainWindow._discard_images` (lines 648–652). -/
def discard_images (w : MainWindow) : MainWindow :=
  { w with captured_images := none, workflow_state := .positioning }

/-- Embeds `EnhancedMainWindow._return_to_positioning` (lines 654–657). -/
def return_to_positioning (w : MainWindow) : MainWindow :=
  { w with workflow_state := .positioning }

/-- Embeds `StereoCamera.save_stereo_pair` (`controller.py` lines 224–250):
on success the pair is written as `base-1.jpg` and `base-2.jpg`; on any
failure it returns `(False, [])`. -/
def save_stereo_pair (saveOk : Bool) (base : String) : Bool × List String :=
  if saveOk then (true, [base ++ "-1.jpg", base ++ "-2.jpg"]) else (false, [])

/-- Embeds `EnhancedMainWindow._save_images` (lines 596–646): generate the
base path, write the pair, on success run the USB backup (whose result
only affects the logged message) and auto-advance; on failure return
to positioning.  The `finally` block clears `captured_images` on every
path through the `try`. -/
def save_images (cfg : UiConfig) (env : WorkflowEnv) (w : MainWindow) : MainWindow :=
  if w.captured_images = none then w
  else
    let w1 := { w with workflow_state := .saving }
    let base := generate_file_path cfg.internal_path w1.current_project
      w1.current_borehole w1.current_depth_from w1.current_depth_to
    let sp := save_stereo_pair env.saveOk base
    if sp.1 then
      let w2 := { w1 with written_files := w1.written_files ++ sp.2 }
      let w3 := advance_to_next_segment cfg w2
      { w3 with captured_images := none }
    else
      { w1 with workflow_state := .positioning, captured_images := none }

/-- Embeds `EnhancedMainWindow._review_camera2` (lines 574–594): show channel
2; accept saves, reject discards. -/
def review_camera2 (cfg : UiConfig) (env : WorkflowEnv) (acc2 : Bool)
    (w : MainWindow) : MainWindow :=
  let w1 := { w with workflow_state := .reviewing_cam2 }
  if acc2 then save_images cfg env w1 else discard_images w1

/-- Embeds `EnhancedMainWindow._start_image_review` (lines 548–572): show
channel 1; accept moves on to channel 2, reject discards. -/
def start_image_review (cfg : UiConfig) (env : WorkflowEnv) (acc1 acc2 : Bool)
    (w : MainWindow) : MainWindow :=
  let w1 := { w with workflow_state := .reviewing_cam1 }
  if acc1 then review_camera2 cfg env acc2 w1 else discard_images w1

/-- Embeds `EnhancedMainWindow._capture_stereo_pair` (lines 517–546): a failed
capture returns to positioning; a successful one stores the pair and
starts the review, with the operator's two accept/reject decisions
`acc1`, `acc2`. -/
def capture_stereo_pair_flow (cfg : UiConfig) (env : WorkflowEnv)
    (acc1 acc2 : Bool) (w : MainWindow) : MainWindow :=
  let w1 := { w with workflow_state := .capturing }
  match env.capture with
  | none => { w1 with workflow_state := .positioning }
  | some imgs =>
      start_image_review cfg env acc1 acc2 { w1 with captured_images := some imgs }

/-- Embeds `EnhancedMainWindow._on_ok_clicked` (lines 496–515): validation
first (an invalid input aborts with no transition); from `main_input`
confirm metadata and move to positioning; from `positioning` capture. -/
def on_ok_clicked (cfg : UiConfig) (env : WorkflowEnv) (acc1 acc2 : Bool)
    (w : MainWindow) : MainWindow :=
  let v := validate_inputs w
  if !v.1 then v.2
  else if v.2.workflow_state = .main_input then
    let w2 := update_current_values v.2
    { w2 with workflow_state := .positioning }
  else if v.2.workflow_state = .positioning then
    capture_stereo_pair_flow cfg env acc1 acc2 v.2
  else v.2

/-- Embeds `EnhancedMainWindow._on_no_clicked` (lines 674–682). -/
def on_no_clicked (w : MainWindow) : MainWindow :=
  if w.workflow_state = .positioning then { w with workflow_state := .main_input }
  else discard_images w

/-- Embeds `EnhancedMainWindow._on_plus_clicked` (lines 684–693): bump the
`depth_to` field by the configured step (parse failure leaves it). -/
def on_plus_clicked (cfg : UiConfig) (w : MainWindow) : MainWindow :=
  match pyFloat? w.depth_to_text with
  | none => w
  | some v => { w with depth_to_text := format2 (v + cfg.segment_adjustment_step) }

/-- Embeds `EnhancedMainWindow._on_minus_clicked` (lines 695–704): lower the
`depth_to` field by the configured step, clamped at `0`. -/
def on_minus_clicked (cfg : UiConfig) (w : MainWindow) : MainWindow :=
  match pyFloat? w.depth_to_text with
  | none => w
  | some v => { w with depth_to_text := format2 (max 0 (v - cfg.segment_adjustment_step)) }

/-- One `adjust_focus` call preserves `focusInBounds`. -/
theorem adjust_focus_preserves_bounds (st : StereoCamera) (d : String) (i : Int)
    (h : focusInBounds st) : focusInBounds (adjust_focus st d i).2 := by
  obtain ⟨h0, h1, h2, h3⟩ := h
  unfold adjust_focus
  by_cases hinc : d = "increase" <;> by_cases hdec : d = "decrease" <;>
    by_cases hi : i = 0 <;>
    (try simp only [hinc, hdec, hi, ite_true, ite_false]) <;>
    (try split) <;> (try split) <;>
    (try simp_all [focusInBounds]) <;> omega

theorem applyFocusSeq_preserves_bounds (ops : List (String × Int))
    (st : StereoCamera) (h : focusInBounds st) :
    focusInBounds (applyFocusSeq ops st) := by
  induction ops generalizing st with
  | nil => exact h
  | cons op rest ih =>
      exact ih _ (adjust_focus_preserves_bounds st op.1 op.2 h)

/-- C1: for every sequence of `adjust_focus` calls, each channel's focus
step stays within `[0, focus_steps - 1]`; a `"decrease"` at step 0, or an
`"increase"` at step `focus_steps - 1`, returns `false` and leaves the
whole camera state unchanged. -/
theorem claim_C1_focus_bounds (st : StereoCamera) (ops : List (String × Int))
    (h : focusInBounds st) :
    focusInBounds (applyFocusSeq ops st) ∧
    (st.focus_step_0 = 0 → adjust_focus st "decrease" 0 = (false, st)) ∧
    (st.focus_step_1 = 0 → adjust_focus st "decrease" 1 = (false, st)) ∧
    (st.focus_step_0 = st.focus_steps - 1 → adjust_focus st "increase" 0 = (false, st)) ∧
    (st.focus_step_1 = st.focus_steps - 1 → adjust_focus st "increase" 1 = (false, st)) := by
  refine ⟨applyFocusSeq_preserves_bounds ops st h, ?_, ?_, ?_, ?_⟩ <;>
    intro hb <;> simp [adjust_focus, hb]

theorem claim_C1_focus_bounds_witness :
    focusInBounds (applyFocusSeq [("increase", 0), ("increase", 0), ("decrease", 1)]
      ⟨(100, 800000), 10000, 8, 3, 3, (0, 10), true⟩) ∧
    adjust_focus ⟨(100, 800000), 10000, 8, 0, 7, (0, 10), true⟩ "decrease" 0 =
      (false, ⟨(100, 800000), 10000, 8, 0, 7, (0, 10), true⟩) :=
  ⟨(claim_C1_focus_bounds ⟨(100, 800000), 10000, 8, 3, 3, (0, 10), true⟩
      [("increase", 0), ("increase", 0), ("decrease", 1)] (by decide)).1,
   (claim_C1_focus_bounds ⟨(100, 800000), 10000, 8, 0, 7, (0, 10), true⟩
      [] (by decide)).2.1 rfl⟩

theorem adjust_exposure_fields (st : StereoCamera) (d : String) (b : Bool) :
    (adjust_exposure st d b).2.exposure_range = st.exposure_range ∧
    (adjust_exposure st d b).2.initialized = st.initialized := by
  unfold adjust_exposure; split_ifs <;> exact ⟨rfl, rfl⟩

theorem adjust_exposure_preserves_range (st : StereoCamera) (d : String) (b : Bool)
    (h0 : 0 ≤ st.exposure_range.1)
    (hle : st.exposure_range.1 ≤ st.exposure_range.2)
    (h : exposureInRange st) :
    exposureInRange (adjust_exposure st d b).2 := by
  obtain ⟨h1, h2⟩ := h
  have he : (0 : ℚ) ≤ st.manual_exposure_time := le_trans h0 h1
  unfold adjust_exposure exposureInRange
  split_ifs
  · exact ⟨h1, h2⟩
  · exact ⟨le_min (by linarith) hle, min_le_right _ _⟩
  · exact ⟨le_max_right _ _, max_le (by linarith) hle⟩
  · exact ⟨h1, h2⟩

theorem applyExposureSeq_preserves_range (ops : List (String × Bool))
    (st : StereoCamera) (h0 : 0 ≤ st.exposure_range.1)
    (hle : st.exposure_range.1 ≤ st.exposure_range.2)
    (h : exposureInRange st) :
    exposureInRange (applyExposureSeq ops st) := by
  induction ops generalizing st with
  | nil => exact h
  | cons op rest ih =>
      have hr := adjust_exposure_fields st op.1 op.2
      exact ih _ (hr.1 ▸ h0) (hr.1 ▸ hle)
        (adjust_exposure_preserves_range st op.1 op.2 h0 hle h)

theorem brighterIter_fields (n : ℕ) (st : StereoCamera) :
    (brighterIter n st).exposure_range = st.exposure_range ∧
    (brighterIter n st).initialized = st.initialized := by
  induction n with
  | zero => exact ⟨rfl, rfl⟩
  | succ n ih =>
      have hr := adjust_exposure_fields (brighterIter n st) "brighter" false
      exact ⟨hr.1.trans ih.1, hr.2.trans ih.2⟩

theorem adjust_exposure_brighter (st : StereoCamera) (hinit : st.initialized = true) :
    (adjust_exposure st "brighter" false).1 = true ∧
    (adjust_exposure st "brighter" false).2.manual_exposure_time =
      min (st.manual_exposure_time * (3 / 2 : ℚ)) st.exposure_range.2 := by
  unfold adjust_exposure
  simp [hinit]

theorem brighterIter_succ_exposure (n : ℕ) (st : StereoCamera)
    (hinit : st.initialized = true) :
    (brighterIter (n + 1) st).manual_exposure_time =
      min ((brighterIter n st).manual_exposure_time * (3 / 2 : ℚ)) st.exposure_range.2 := by
  have hi : (brighterIter n st).initialized = true := (brighterIter_fields n st).2.trans hinit
  have hr := (brighterIter_fields n st).1
  have := (adjust_exposure_brighter (brighterIter n st) hi).2
  calc (brighterIter (n + 1) st).manual_exposure_time
      = min ((brighterIter n st).manual_exposure_time * (3 / 2 : ℚ))
          (brighterIter n st).exposure_range.2 := this
    _ = _ := by rw [hr]

theorem brighterIter_le_max (n : ℕ) (st : StereoCamera)
    (hinit : st.initialized = true)
    (hub : st.manual_exposure_time ≤ st.exposure_range.2) :
    (brighterIter n st).manual_exposure_time ≤ st.exposure_range.2 := by
  induction n with
  | zero => exact hub
  | succ n ih =>
      rw [brighterIter_succ_exposure n st hinit]
      exact min_le_right _ _

theorem brighterIter_lower_bound (n : ℕ) (st : StereoCamera)
    (hinit : st.initialized = true)
    (hpos : 0 < st.manual_exposure_time)
    (hub : st.manual_exposure_time ≤ st.exposure_range.2) :
    min (st.manual_exposure_time + (n : ℚ) * (st.manual_exposure_time / 2))
        st.exposure_range.2 ≤ (brighterIter n st).manual_exposure_time := by
  set e0 := st.manual_exposure_time with he0
  set mx := st.exposure_range.2 with hmx
  induction n with
  | zero =>
      simp only [Nat.cast_zero, zero_mul, add_zero]
      exact min_le_left _ _
  | succ n ih =>
      rw [brighterIter_succ_exposure n st hinit]
      push_cast
      refine le_min ?_ (min_le_right _ _)
      rcases le_or_lt mx (e0 + (n : ℚ) * (e0 / 2)) with hc | hc
      · have hmxle : mx ≤ (brighterIter n st).manual_exposure_time := by
          have := min_eq_right hc ▸ ih
          exact this
        have heq : (brighterIter n st).manual_exposure_time = mx :=
          le_antisymm (brighterIter_le_max n st hinit hub) hmxle
        have hmx0 : (0 : ℚ) ≤ mx := le_trans (le_of_lt hpos) hub
        calc min (e0 + ((n : ℚ) + 1) * (e0 / 2)) mx ≤ mx := min_le_right _ _
          _ ≤ (brighterIter n st).manual_exposure_time * (3 / 2) := by
              rw [heq]; linarith
      · have hIH : e0 + (n : ℚ) * (e0 / 2) ≤ (brighterIter n st).manual_exposure_time := by
          have := min_eq_left (le_of_lt hc) ▸ ih
          exact this
        have hn0 : (0 : ℚ) ≤ (n : ℚ) * (e0 / 2) :=
          mul_nonneg (Nat.cast_nonneg n) (by linarith)
        have he0le : e0 ≤ (brighterIter n st).manual_exposure_time := by linarith
        calc min (e0 + ((n : ℚ) + 1) * (e0 / 2)) mx
            ≤ e0 + ((n : ℚ) + 1) * (e0 / 2) := min_le_left _ _
          _ = (e0 + (n : ℚ) * (e0 / 2)) + e0 / 2 := by ring
          _ ≤ (brighterIter n st).manual_exposure_time +
              (brighterIter n st).manual_exposure_time / 2 := by linarith
          _ = (brighterIter n st).manual_exposure_time * (3 / 2) := by ring

theorem brighterIter_eventually_max (st : StereoCamera)
    (hinit : st.initialized = true)
    (hpos : 0 < st.manual_exposure_time)
    (hub : st.manual_exposure_time ≤ st.exposure_range.2) :
    ∃ N : ℕ, ∀ m : ℕ, N ≤ m →
      (brighterIter m st).manual_exposure_time = st.exposure_range.2 := by
  set e0 := st.manual_exposure_time with he0
  set mx := st.exposure_range.2 with hmx
  obtain ⟨N, hN⟩ := exists_nat_ge ((mx - e0) / (e0 / 2))
  have hhalf : (0 : ℚ) < e0 / 2 := by linarith
  have hreach : mx ≤ e0 + (N : ℚ) * (e0 / 2) := by
    have := (div_le_iff₀ hhalf).mp hN
    linarith
  have hatN : (brighterIter N st).manual_exposure_time = mx := by
    have hlb := brighterIter_lower_bound N st hinit hpos hub
    rw [min_eq_right hreach] at hlb
    exact le_antisymm (brighterIter_le_max N st hinit hub) hlb
  refine ⟨N, ?_⟩
  intro m hm
  induction m, hm using Nat.le_induction with
  | base => exact hatN
  | succ m _ ih =>
      rw [brighterIter_succ_exposure m st hinit, ih]
      have hmx0 : (0 : ℚ) ≤ mx := le_trans (le_of_lt hpos) hub
      exact min_eq_right (by linarith)

/-- C2: for every sequence of `adjust_exposure` calls on an initialized
controller, the shared exposure stays within
`[exposure_range.1, exposure_range.2]`; repeated `"brighter"` calls
eventually reach `exposure_range.2` and remain there; and a
`"brighter"` call made when the value already equals the bound still
returns `true` (success) and leaves the value at the bound. -/
theorem claim_C2_exposure_range (st : StereoCamera) (ops : List (String × Bool))
    (h0 : 0 ≤ st.exposure_range.1)
    (hle : st.exposure_range.1 ≤ st.exposure_range.2)
    (h : exposureInRange st)
    (hinit : st.initialized = true)
    (hpos : 0 < st.manual_exposure_time) :
    exposureInRange (applyExposureSeq ops st) ∧
    (∃ N : ℕ, ∀ m : ℕ, N ≤ m →
      (brighterIter m st).manual_exposure_time = st.exposure_range.2) ∧
    (st.manual_exposure_time = st.exposure_range.2 →
      (adjust_exposure st "brighter" false).1 = true ∧
      (adjust_exposure st "brighter" false).2.manual_exposure_time =
        st.manual_exposure_time) := by
  refine ⟨applyExposureSeq_preserves_range ops st h0 hle h,
    brighterIter_eventually_max st hinit hpos h.2, ?_⟩
  intro hbound
  refine ⟨(adjust_exposure_brighter st hinit).1, ?_⟩
  rw [(adjust_exposure_brighter st hinit).2, hbound]
  exact min_eq_right (by nlinarith [le_trans (le_of_lt hpos) h.2, hbound])

theorem claim_C2_exposure_range_witness :
    exposureInRange (applyExposureSeq [("brighter", false), ("darker", false)]
      ⟨(100, 800000), 10000, 8, 3, 3, (0, 10), true⟩) ∧
    (∃ N : ℕ, ∀ m : ℕ, N ≤ m →
      (brighterIter m ⟨(100, 800000), 10000, 8, 3, 3, (0, 10), true⟩).manual_exposure_time
        = 800000) ∧
    (adjust_exposure ⟨(100, 800000), 800000, 8, 3, 3, (0, 10), true⟩ "brighter" false).1
      = true :=
  ⟨(claim_C2_exposure_range ⟨(100, 800000), 10000, 8, 3, 3, (0, 10), true⟩
      [("brighter", false), ("darker", false)]
      (by norm_num) (by norm_num) (by constructor <;> norm_num) rfl (by norm_num)).1,
   (claim_C2_exposure_range ⟨(100, 800000), 10000, 8, 3, 3, (0, 10), true⟩
      [] (by norm_num) (by norm_num) (by constructor <;> norm_num) rfl (by norm_num)).2.1,
   ((claim_C2_exposure_range ⟨(100, 800000), 800000, 8, 3, 3, (0, 10), true⟩
      [] (by norm_num) (by norm_num) (by constructor <;> norm_num) rfl
      (by norm_num)).2.2 rfl).1⟩

/-- C6: `capture_stereo_pair` never returns a partial pair: one channel's
image is `some` exactly when the other's is; an uninitialized controller,
or a failure on either channel, yields `(none, none)` — the image from a
channel that succeeded is never returned. -/
theorem claim_C6_no_partial_pair (st : StereoCamera) (r0 r1 : Except Unit ℕ) :
    ((capture_stereo_pair st r0 r1).1.isSome ↔ (capture_stereo_pair st r0 r1).2.isSome) ∧
    (st.initialized = false → capture_stereo_pair st r0 r1 = (none, none)) ∧
    (∀ e, r0 = .error e → capture_stereo_pair st r0 r1 = (none, none)) ∧
    (∀ e, r1 = .error e → capture_stereo_pair st r0 r1 = (none, none)) := by
  unfold capture_stereo_pair
  rcases r0 with e0 | i0 <;> rcases r1 with e1 | i1 <;>
    rcases hinit : st.initialized <;> simp

theorem claim_C6_no_partial_pair_witness :
    capture_stereo_pair ⟨(100, 800000), 10000, 8, 3, 3, (0, 10), true⟩
      (.ok 1) (.error ()) = (none, none) :=
  (claim_C6_no_partial_pair ⟨(100, 800000), 10000, 8, 3, 3, (0, 10), true⟩
      (.ok 1) (.error ())).2.2.2 () rfl

/-- C10: `adjust_focus` does not require initialization: even with
`initialized = false`, a valid non-boundary call updates the addressed
channel's stored step and returns `true`; `adjust_exposure`, by
contrast, returns `false` immediately (with no state change) whenever
the controller is uninitialized. -/
theorem claim_C10_focus_without_init (st : StereoCamera) (d : String) (b : Bool)
    (huninit : st.initialized = false) :
    adjust_exposure st d b = (false, st) ∧
    (st.focus_step_0 < st.focus_steps - 1 →
      adjust_focus st "increase" 0 = (true, { st with focus_step_0 := st.focus_step_0 + 1 })) ∧
    (0 < st.focus_step_0 →
      adjust_focus st "decrease" 0 = (true, { st with focus_step_0 := st.focus_step_0 - 1 })) ∧
    (st.focus_step_1 < st.focus_steps - 1 →
      adjust_focus st "increase" 1 = (true, { st with focus_step_1 := st.focus_step_1 + 1 })) ∧
    (0 < st.focus_step_1 →
      adjust_focus st "decrease" 1 = (true, { st with focus_step_1 := st.focus_step_1 - 1 })) := by
  refine ⟨by simp [adjust_exposure, huninit], ?_, ?_, ?_, ?_⟩ <;> intro hb
  · have hmin : min (st.focus_step_0 + 1) (st.focus_steps - 1) = st.focus_step_0 + 1 :=
      min_eq_left (by omega)
    have hne : st.focus_step_0 + 1 ≠ st.focus_step_0 := by omega
    simp [adjust_focus, hmin, hne]
  · have hmax : max (st.focus_step_0 - 1) 0 = st.focus_step_0 - 1 :=
      max_eq_left (by omega)
    have hne : st.focus_step_0 - 1 ≠ st.focus_step_0 := by omega
    simp [adjust_focus, hmax, hne]
  · have hmin : min (st.focus_step_1 + 1) (st.focus_steps - 1) = st.focus_step_1 + 1 :=
      min_eq_left (by omega)
    have hne : st.focus_step_1 + 1 ≠ st.focus_step_1 := by omega
    simp [adjust_focus, hmin, hne]
  · have hmax : max (st.focus_step_1 - 1) 0 = st.focus_step_1 - 1 :=
      max_eq_left (by omega)
    have hne : st.focus_step_1 - 1 ≠ st.focus_step_1 := by omega
    simp [adjust_focus, hmax, hne]

theorem claim_C10_focus_without_init_witness :
    adjust_exposure ⟨(100, 800000), 10000, 8, 3, 3, (0, 10), false⟩ "brighter" false =
      (false, ⟨(100, 800000), 10000, 8, 3, 3, (0, 10), false⟩) ∧
    adjust_focus ⟨(100, 800000), 10000, 8, 3, 3, (0, 10), false⟩ "increase" 0 =
      (true, ⟨(100, 800000), 10000, 8, 4, 3, (0, 10), false⟩) := by
  have h := claim_C10_focus_without_init
    ⟨(100, 800000), 10000, 8, 3, 3, (0, 10), false⟩ "brighter" false rfl
  exact ⟨h.1, by rw [h.2.1 (by decide)]; rfl⟩

/-! ## Sanitization and path generation (claims C7, C8) -/

theorem mem_replaceAll {a b c : Char} {l : List Char}
    (h : c ∈ replaceAll a b l) : c = b ∨ (c ∈ l ∧ c ≠ a) := by
  unfold replaceAll at h
  obtain ⟨x, hx, hxc⟩ := List.mem_map.mp h
  by_cases hxa : x = a
  · subst hxa; simp at hxc; exact Or.inl hxc.symm
  · simp [hxa] at hxc; subst hxc; exact Or.inr ⟨hx, hxa⟩

theorem not_mem_replaceAll {a b c : Char} {l : List Char}
    (hcb : c ≠ b) (h : c = a ∨ c ∉ l) : c ∉ replaceAll a b l := by
  intro hmem
  rcases mem_replaceAll hmem with hb | ⟨hl, hna⟩
  · exact hcb hb
  · rcases h with rfl | hnl
    · exact hna rfl
    · exact hnl hl

theorem not_mem_foldl_replace {cs l : List Char} {c : Char}
    (hcb : c ≠ '_') (h : c ∈ cs ∨ c ∉ l) :
    c ∉ cs.foldl (fun acc a => replaceAll a '_' acc) l := by
  induction cs generalizing l with
  | nil =>
      rcases h with h | h
      · exact absurd h (List.not_mem_nil c)
      · simpa using h
  | cons a rest ih =>
      simp only [List.foldl_cons]
      rcases h with hmem | hnot
      · rcases List.mem_cons.mp hmem with rfl | hr
        · exact ih (Or.inr (not_mem_replaceAll hcb (Or.inl rfl)))
        · exact ih (Or.inl hr)
      · exact ih (Or.inr (not_mem_replaceAll hcb (Or.inr hnot)))

theorem not_mem_replaceInvalid {c : Char} (hc : c ∈ invalid_chars) (l : List Char) :
    c ∉ replaceInvalid l := by
  have hcb : c ≠ '_' := by fin_cases hc <;> decide
  unfold replaceInvalid
  exact not_mem_foldl_replace hcb (Or.inl hc)

theorem mem_stripSpaceDot {c : Char} {l : List Char}
    (h : c ∈ stripSpaceDot l) : c ∈ l := by
  unfold stripSpaceDot at h
  have h1 := List.mem_reverse.mp h
  have h2 := (List.dropWhile_sublist _).subset h1
  have h3 := List.mem_reverse.mp h2
  exact (List.dropWhile_sublist _).subset h3

theorem sanitize_filename_no_invalid (s : String) {c : Char}
    (hc : c ∈ invalid_chars) : c ∉ (sanitize_filename s).toList := by
  unfold sanitize_filename
  by_cases hcl : (stripSpaceDot (replaceInvalid s.toList)).isEmpty = true <;>
    simp only [hcl, ite_true, ite_false, Bool.false_eq_true, if_false, if_true]
  · fin_cases hc <;> decide
  · intro h
    exact not_mem_replaceInvalid hc _ (mem_stripSpaceDot h)

theorem sanitize_filename_ne_empty (s : String) : sanitize_filename s ≠ "" := by
  unfold sanitize_filename
  by_cases hcl : (stripSpaceDot (replaceInvalid s.toList)).isEmpty = true <;>
    simp only [hcl, ite_true, ite_false, Bool.false_eq_true, if_false, if_true]
  · decide
  · intro he
    exact hcl (by simpa [List.isEmpty_iff] using congrArg String.toList he)

/-- C8: `generate_file_path` is deterministic (equal inputs give equal
paths — the embedding makes the read of `internal_path` explicit, so
the result depends on nothing else), and sanitization removes every
filesystem-invalid character from both name components, never yields an
empty component, and substitutes `"unnamed"` for a name that is empty
after cleaning. -/
theorem claim_C8_deterministic_sanitized_paths
    (root p b p' b' : String) (f t f' t' : ℚ) (c : Char)
    (hc : c ∈ invalid_chars) (hp : p = p') (hb : b = b') (hf : f = f') (ht : t = t') :
    generate_file_path root p b f t = generate_file_path root p' b' f' t' ∧
    c ∉ (sanitize_filename p).toList ∧
    c ∉ (sanitize_filename b).toList ∧
    sanitize_filename p ≠ "" ∧
    (stripSpaceDot (replaceInvalid p.toList) = [] → sanitize_filename p = "unnamed") := by
  subst hp hb hf ht
  refine ⟨rfl, sanitize_filename_no_invalid p hc, sanitize_filename_no_invalid b hc,
    sanitize_filename_ne_empty p, ?_⟩
  intro he
  unfold sanitize_filename
  rw [he]
  rfl

theorem claim_C8_deterministic_sanitized_paths_witness :
    generate_file_path "/data" "a<b" " c* " 0 1 = generate_file_path "/data" "a<b" " c* " 0 1 ∧
    '<' ∉ (sanitize_filename "a<b").toList :=
  ⟨(claim_C8_deterministic_sanitized_paths "/data" "a<b" " c* " "a<b" " c* " 0 1 0 1 '<'
      (by decide) rfl rfl rfl rfl).1,
   (claim_C8_deterministic_sanitized_paths "/data" "a<b" " c* " "a<b" " c* " 0 1 0 1 '<'
      (by decide) rfl rfl rfl rfl).2.1⟩

theorem format2Chars_zero : format2Chars 0 = ['0', '.', '0', '0'] := by
  have h : round ((0 : ℚ) * 100) = 0 := by norm_num
  unfold format2Chars
  rw [h]
  decide

theorem format2Chars_half : format2Chars (1 / 2) = ['0', '.', '5', '0'] := by
  have h : round ((1 / 2 : ℚ) * 100) = 50 := by norm_num [round_eq]
  unfold format2Chars
  rw [h]
  decide

/-- C7 as stated is false on the code: `' '` is not one of the
characters `_sanitize_filename` replaces, so the space in
`"My Project"` survives into the path — the claimed first component
`My_Project` is wrong. -/
theorem claim_C7_counterexample :
    generate_file_path "/data" "My Project" "BH/1" 0 (1 / 2) ≠
      "/data/My_Project/BH_1/BH_1-0_00-0_50" := by
  unfold generate_file_path
  rw [format2Chars_zero, format2Chars_half]
  decide

/-- C7 (amended): `generate_file_path("My Project", "BH/1", 0.0, 0.5)`
returns, relative to the primary root, `"My Project/BH_1/BH_1-0_00-0_50"`:
the slash is replaced by underscore but the space is kept. -/
theorem claim_C7_generate_file_path_example :
    generate_file_path "/data" "My Project" "BH/1" 0 (1 / 2) =
      "/data" ++ "/" ++ "My Project/BH_1/BH_1-0_00-0_50" := by
  unfold generate_file_path
  rw [format2Chars_zero, format2Chars_half]
  decide

/-! ## Backup semantics (claim C9) -/

/-- C9: in `save_images_to_storage`, with a USB drive present the
backed-up files are exactly the existing files whose copy succeeded
(a per-file copy failure adds an error entry but does not stop the
remaining copies), and `usb_success` holds iff at least one file was
copied; with no USB drive, `usb_success` is `false`, a single
non-fatal warning entry is reported, and `internal_success` still
reflects the primary files alone; and in the window workflow a
successful primary save with no USB drive present still auto-advances
(the save is treated as an overall success). -/
theorem claim_C9_backup_best_effort (root : String) (exists? copyOk : String → Bool)
    (drives : List String) (u : String) (rest files : List String)
    (hd : drives = u :: rest) :
    ((save_images_to_storage root exists? drives copyOk files true).usb_paths =
      ((files.filter exists?).filter copyOk).map (usbDest root u) ∧
     ∀ f ∈ files.filter exists?, copyOk f = false →
       ("USB backup failed for " ++ f) ∈
         (save_images_to_storage root exists? drives copyOk files true).errors) ∧
    ((save_images_to_storage root exists? drives copyOk files true).usb_success = true ↔
      (files.filter exists?).filter copyOk ≠ []) ∧
    ((save_images_to_storage root exists? [] copyOk files true).usb_success = false ∧
     "No USB drives available for backup" ∈
       (save_images_to_storage root exists? [] copyOk files true).errors ∧
     ((save_images_to_storage root exists? [] copyOk files true).internal_success = true ↔
       files.filter exists? ≠ [])) ∧
    (∀ (cfg : UiConfig) (env : WorkflowEnv) (w : MainWindow),
      env.usb_drives = [] → env.saveOk = true → w.captured_images ≠ none →
      (save_images cfg env w).workflow_state = .positioning ∧
      (save_images cfg env w).depth_from_text = format2 w.current_depth_to ∧
      (save_images cfg env w).written_files ≠ w.written_files) := by
  subst hd
  refine ⟨⟨rfl, ?_⟩, ?_, ⟨rfl, ?_, ?_⟩, ?_⟩
  · intro f hf hcopy
    unfold save_images_to_storage
    simp only [SaveResults.mk.injEq]
    apply List.mem_append.mpr
    right
    exact List.mem_map_of_mem _ (List.mem_filter.mpr
      ⟨hf, by simp [hcopy]⟩)
  · unfold save_images_to_storage
    simp [List.isEmpty_iff]
  · unfold save_images_to_storage
    simp
  · unfold save_images_to_storage
    simp [List.isEmpty_iff]
  · intro cfg env w hdrives hsave hcap
    unfold save_images
    simp only [hcap, ite_false, if_false]
    unfold save_stereo_pair
    simp [hsave, advance_to_next_segment, format2]

theorem claim_C9_backup_best_effort_witness :
    (save_images_to_storage "/r" (fun _ => true) ["/usb"]
      (fun f => f = "/r/a/b-2.jpg") ["/r/a/b-1.jpg", "/r/a/b-2.jpg"] true).usb_paths =
      ["/usb/core_photos/a/b-2.jpg"] ∧
    "USB backup failed for /r/a/b-1.jpg" ∈
      (save_images_to_storage "/r" (fun _ => true) ["/usb"]
        (fun f => f = "/r/a/b-2.jpg") ["/r/a/b-1.jpg", "/r/a/b-2.jpg"] true).errors := by
  have h := claim_C9_backup_best_effort "/r" (fun _ => true)
    (fun f => decide (f = "/r/a/b-2.jpg")) ["/usb"] "/usb" []
    ["/r/a/b-1.jpg", "/r/a/b-2.jpg"] rfl
  constructor
  · rw [h.1.1]
    decide
  · exact h.1.2 "/r/a/b-1.jpg" (by decide) (by decide)

/-! ## Decimal printing and parsing agree (support for claim C4) -/

theorem natDigitsRev_zero (fuel : ℕ) : natDigitsRev fuel 0 = [] := by
  cases fuel <;> simp [natDigitsRev]

theorem natDigitsRev_succ (f m : ℕ) (hm : m ≠ 0) :
    natDigitsRev (f + 1) m = m % 10 :: natDigitsRev f (m / 10) := by
  rw [natDigitsRev]
  exact if_neg hm

theorem foldl_digits_acc (l : List Char) (a : ℕ) :
    l.foldl (fun x c => x * 10 + digitVal c) a = a * 10 ^ l.length + digitsVal l := by
  induction l generalizing a with
  | nil => simp [digitsVal]
  | cons c t ih =>
      have hd : digitsVal (c :: t) = digitVal c * 10 ^ t.length + digitsVal t := by
        have h2 := ih (0 * 10 + digitVal c)
        unfold digitsVal
        unfold digitsVal at h2
        rw [List.foldl_cons, h2]
        ring
      rw [List.foldl_cons, ih (a * 10 + digitVal c), hd, List.length_cons]
      ring

theorem digitsVal_append (l1 l2 : List Char) :
    digitsVal (l1 ++ l2) = digitsVal l1 * 10 ^ l2.length + digitsVal l2 := by
  unfold digitsVal
  rw [List.foldl_append]
  exact foldl_digits_acc l2 _

theorem digitVal_digitChar (d : ℕ) (h : d < 10) : digitVal (digitChar d) = d := by
  interval_cases d <;> decide

theorem digitChar_isDigit (d : ℕ) (h : d < 10) : (digitChar d).isDigit = true := by
  interval_cases d <;> decide

theorem natDigitsRev_lt (fuel m : ℕ) : ∀ d ∈ natDigitsRev fuel m, d < 10 := by
  induction fuel generalizing m with
  | zero => intro d hd; simp [natDigitsRev] at hd
  | succ f ih =>
      intro d hd
      by_cases hm : m = 0
      · rw [hm, natDigitsRev_zero] at hd
        simp at hd
      · rw [natDigitsRev_succ f m hm] at hd
        rcases List.mem_cons.mp hd with rfl | hrest
        · exact Nat.mod_lt m (by omega)
        · exact ih (m / 10) d hrest

theorem digitsVal_natChars_of_le (fuel m : ℕ) (h : m ≤ fuel) :
    digitsVal (((natDigitsRev fuel m).map digitChar).reverse) = m := by
  induction fuel generalizing m with
  | zero =>
      interval_cases m
      simp [natDigitsRev, digitsVal]
  | succ f ih =>
      by_cases hm : m = 0
      · simp [hm, natDigitsRev_zero, digitsVal]
      · have hstep := natDigitsRev_succ f m hm
        have hdivle : m / 10 ≤ f := by omega
        rw [hstep, List.map_cons, List.reverse_cons, digitsVal_append, ih _ hdivle]
        have h1 : digitsVal [digitChar (m % 10)] = m % 10 := by
          unfold digitsVal
          simp [List.foldl_cons, digitVal_digitChar _ (Nat.mod_lt m (by norm_num))]
        rw [h1]
        simp only [List.length_cons, List.length_nil, pow_one]
        omega

theorem natChars_all_digits (m : ℕ) : ∀ c ∈ natChars m, c.isDigit = true := by
  intro c hc
  unfold natChars at hc
  obtain ⟨d, hd, rfl⟩ := List.mem_map.mp (List.mem_reverse.mp hc)
  exact digitChar_isDigit d (natDigitsRev_lt m m d hd)

theorem natStrChars_all_digits (m : ℕ) : ∀ c ∈ natStrChars m, c.isDigit = true := by
  intro c hc
  unfold natStrChars at hc
  by_cases hm : m = 0
  · simp [hm] at hc
    subst hc; decide
  · rw [if_neg hm] at hc
    exact natChars_all_digits m c hc

theorem digitsVal_natStrChars (m : ℕ) : digitsVal (natStrChars m) = m := by
  unfold natStrChars
  by_cases hm : m = 0
  · subst hm; decide
  · rw [if_neg hm]
    exact digitsVal_natChars_of_le m m le_rfl

theorem natStrChars_ne_nil (m : ℕ) : natStrChars m ≠ [] := by
  unfold natStrChars
  by_cases hm : m = 0
  · simp [hm]
  · rw [if_neg hm]
    unfold natChars
    obtain ⟨f, rfl⟩ := Nat.exists_eq_succ_of_ne_zero hm
    rw [natDigitsRev_succ f (f + 1) hm]
    simp

theorem pad2Chars_all_digits (r : ℕ) : ∀ c ∈ pad2Chars r, c.isDigit = true := by
  intro c hc
  unfold pad2Chars at hc
  by_cases hr : r < 10
  · rw [if_pos hr] at hc
    rcases List.mem_cons.mp hc with rfl | h
    · decide
    · exact natStrChars_all_digits r c h
  · rw [if_neg hr] at hc
    exact natStrChars_all_digits r c hc

theorem digitsVal_cons_zero (l : List Char) : digitsVal ('0' :: l) = digitsVal l := by
  unfold digitsVal
  simp [List.foldl_cons, digitVal]

theorem digitsVal_pad2Chars (r : ℕ) : digitsVal (pad2Chars r) = r := by
  unfold pad2Chars
  by_cases hr : r < 10
  · rw [if_pos hr, digitsVal_cons_zero, digitsVal_natStrChars]
  · rw [if_neg hr, digitsVal_natStrChars]

theorem natDigitsRev_small (fuel m : ℕ) (h1 : 0 < m) (h2 : m < 10) (h3 : m ≤ fuel) :
    natDigitsRev fuel m = [m] := by
  cases fuel with
  | zero => omega
  | succ f =>
      rw [natDigitsRev_succ f m (by omega), Nat.mod_eq_of_lt h2, Nat.div_eq_of_lt h2,
        natDigitsRev_zero]

theorem natStrChars_len_one (m : ℕ) (h : m < 10) : (natStrChars m).length = 1 := by
  unfold natStrChars
  by_cases hm : m = 0
  · simp [hm]
  · rw [if_neg hm]
    unfold natChars
    rw [natDigitsRev_small m m (by omega) h le_rfl]
    rfl

theorem natStrChars_len_two (m : ℕ) (h1 : 10 ≤ m) (h2 : m < 100) :
    (natStrChars m).length = 2 := by
  unfold natStrChars
  rw [if_neg (by omega)]
  unfold natChars
  cases m with
  | zero => omega
  | succ k =>
      rw [natDigitsRev_succ k (k + 1) (by omega),
        natDigitsRev_small k ((k + 1) / 10) (by omega) (by omega) (by omega)]
      rfl

theorem pad2Chars_len_two (r : ℕ) (h : r < 100) : (pad2Chars r).length = 2 := by
  unfold pad2Chars
  by_cases hr : r < 10
  · rw [if_pos hr]
    simp [natStrChars_len_one r hr]
  · rw [if_neg hr]
    exact natStrChars_len_two r (by omega) h

theorem isDigit_not_ws {c : Char} (h : c.isDigit = true) : c.isWhitespace = false := by
  simp only [Char.isWhitespace, Bool.or_eq_false_iff, decide_eq_false_iff_not]
  refine ⟨⟨⟨?_, ?_⟩, ?_⟩, ?_⟩ <;> rintro rfl <;> exact absurd h (by decide)

theorem isDigit_ne_minus {c : Char} (h : c.isDigit = true) : c ≠ '-' := by
  rintro rfl; exact absurd h (by decide)

theorem isDigit_ne_plus {c : Char} (h : c.isDigit = true) : c ≠ '+' := by
  rintro rfl; exact absurd h (by decide)

theorem dropWhile_eq_self_of {p : Char → Bool} {l : List Char}
    (h : ∀ c ∈ l, p c = false) : l.dropWhile p = l := by
  cases l with
  | nil => rfl
  | cons c t =>
      exact List.dropWhile_cons_of_neg (by simp [h c (List.mem_cons_self c t)])

theorem trimWs_eq_self {l : List Char} (h : ∀ c ∈ l, c.isWhitespace = false) :
    trimWs l = l := by
  unfold trimWs
  rw [dropWhile_eq_self_of h,
    dropWhile_eq_self_of (fun c hc => h c (List.mem_reverse.mp hc)),
    List.reverse_reverse]

theorem round_x100 (x : ℚ) (hden : (x * 100).den = 1) :
    round (x * 100) = (x * 100).num := by
  conv_lhs => rw [← Rat.num_div_den (x * 100)]
  rw [hden]
  simp

theorem num_cast_eq_self (x : ℚ) (hden : (x * 100).den = 1) :
    (((x * 100).num : ℚ)) = x * 100 := by
  conv_rhs => rw [← Rat.num_div_den (x * 100)]
  rw [hden]
  simp

/-- Printing a nonnegative rational that is a whole number of
hundredths with `format2` and parsing it back with `pyFloat?` recovers
the value exactly. -/
theorem pyFloat_format2 (x : ℚ) (hx : 0 ≤ x) (hden : (x * 100).den = 1) :
    pyFloat? (format2 x) = some x := by
  have hz := round_x100 x hden
  have hz0 : 0 ≤ (x * 100).num := Rat.num_nonneg.mpr (by positivity)
  have hfmt : format2Chars x =
      natStrChars ((x * 100).num.natAbs / 100) ++
        '.' :: pad2Chars ((x * 100).num.natAbs % 100) := by
    unfold format2Chars
    rw [hz, if_neg (by omega)]
  set q : ℕ := (x * 100).num.natAbs / 100 with hq
  set r : ℕ := (x * 100).num.natAbs % 100 with hr
  have hxm : (((x * 100).num.natAbs : ℕ) : ℚ) = x * 100 := by
    have h1 : ((x * 100).num.natAbs : ℤ) = (x * 100).num := Int.natAbs_of_nonneg hz0
    rw [← Int.cast_natCast (R := ℚ), h1, num_cast_eq_self x hden]
  have hrlt : r < 100 := Nat.mod_lt _ (by omega)
  have hval : ((q : ℕ) : ℚ) + ((r : ℕ) : ℚ) / (10 : ℚ) ^ (2 : ℕ) = x := by
    have hdm : q * 100 + r = (x * 100).num.natAbs := by
      rw [hq, hr]; omega
    have hcast : ((q : ℕ) : ℚ) * 100 + ((r : ℕ) : ℚ) = x * 100 := by
      rw [← hxm]
      exact_mod_cast congrArg (fun n : ℕ => (n : ℚ)) hdm
    have h100 : (10 : ℚ) ^ (2 : ℕ) = 100 := by norm_num
    rw [h100]
    linarith
  have htoList : (format2 x).toList =
      natStrChars q ++ '.' :: pad2Chars r := hfmt
  have hnws : ∀ c ∈ (format2 x).toList, c.isWhitespace = false := by
    rw [htoList]
    intro c hc
    rcases List.mem_append.mp hc with h1 | h2
    · exact isDigit_not_ws (natStrChars_all_digits _ c h1)
    · rcases List.mem_cons.mp h2 with rfl | h3
      · decide
      · exact isDigit_not_ws (pad2Chars_all_digits _ c h3)
  have htrim : trimWs (format2 x).toList = natStrChars q ++ '.' :: pad2Chars r :=
    (trimWs_eq_self hnws).trans htoList
  obtain ⟨c0, cs, hcons⟩ := List.exists_cons_of_ne_nil (natStrChars_ne_nil q)
  have hc0 : c0.isDigit = true :=
    natStrChars_all_digits q c0 (by rw [hcons]; exact List.mem_cons_self _ _)
  have hhead : (natStrChars q ++ '.' :: pad2Chars r).head? = some c0 := by
    rw [hcons]; rfl
  have hip : (natStrChars q ++ '.' :: pad2Chars r).takeWhile Char.isDigit
      = natStrChars q := by
    rw [List.takeWhile_append_of_pos (natStrChars_all_digits q),
      List.takeWhile_cons_of_neg (by decide), List.append_nil]
  have hrest : (natStrChars q ++ '.' :: pad2Chars r).dropWhile Char.isDigit
      = '.' :: pad2Chars r := by
    rw [List.dropWhile_append_of_pos (natStrChars_all_digits q),
      List.dropWhile_cons_of_neg (by decide)]
  simp only [pyFloat?]
  rw [htrim, hhead]
  rw [if_neg (by simp [isDigit_ne_minus hc0]), if_neg (by simp [isDigit_ne_plus hc0])]
  simp only [pyFloatMag]
  rw [hip, hrest]
  dsimp only
  rw [if_pos ⟨rfl, List.all_eq_true.mpr (fun c hc => pad2Chars_all_digits r c hc),
    by simp [List.isEmpty_iff, hcons]⟩]
  rw [digitsVal_natStrChars, digitsVal_pad2Chars, pad2Chars_len_two r hrlt, hval]

/-! ## Workflow theorems (claims C3, C4, C5) -/

theorem update_current_values_frame (w : MainWindow) :
    (update_current_values w).workflow_state = w.workflow_state ∧
    (update_current_values w).written_files = w.written_files ∧
    (update_current_values w).captured_images = w.captured_images := by
  refine ⟨?_, ?_, ?_⟩ <;>
    (simp only [update_current_values]; split <;> (try split) <;> rfl)

theorem validate_inputs_snd (w : MainWindow) :
    (validate_inputs w).2 = update_current_values w := by
  simp only [validate_inputs]
  split_ifs <;> rfl

/-- C3 (amended): validation before leaving `main_input` rejects — with
no state transition — an empty (stripped) project name, an empty
borehole name, and `depth_from ≥ depth_to`; depth text that does not
parse never crashes and leaves the previously stored depth values in
place (validation then runs against those previous values; no
validation error is raised for the unparsable text itself). -/
theorem claim_C3_validation_guards (cfg : UiConfig) (env : WorkflowEnv)
    (a1 a2 : Bool) (w : MainWindow)
    (hmain : w.workflow_state = WorkflowState.main_input) :
    ((update_current_values w).current_project = "" → (validate_inputs w).1 = false) ∧
    ((update_current_values w).current_borehole = "" → (validate_inputs w).1 = false) ∧
    ((update_current_values w).current_depth_to ≤ (update_current_values w).current_depth_from →
      (validate_inputs w).1 = false) ∧
    ((validate_inputs w).1 = false →
      (on_ok_clicked cfg env a1 a2 w).workflow_state = WorkflowState.main_input ∧
      (on_ok_clicked cfg env a1 a2 w).written_files = w.written_files) ∧
    (pyFloat? w.depth_from_text = none →
      (update_current_values w).current_depth_from = w.current_depth_from ∧
      (update_current_values w).current_depth_to = w.current_depth_to) := by
  refine ⟨?_, ?_, ?_, ?_, ?_⟩
  · intro h
    simp only [validate_inputs]
    rw [if_pos h]
  · intro h
    simp only [validate_inputs]
    split_ifs <;> rfl
  · intro h
    simp only [validate_inputs]
    split_ifs <;> rfl
  · intro h
    simp only [on_ok_clicked, h, Bool.not_false, if_true]
    rw [validate_inputs_snd]
    exact ⟨(update_current_values_frame w).1.trans hmain,
      (update_current_values_frame w).2.1⟩
  · intro h
    simp [update_current_values, h]

theorem claim_C3_validation_guards_witness :
    (validate_inputs ⟨WorkflowState.main_input, "", "", 0, 1, "  ", "B", "0", "1",
      none, []⟩).1 = false ∧
    (on_ok_clicked ⟨"/r", 1, 1⟩ ⟨none, true, [], fun _ => false⟩ true true
      ⟨WorkflowState.main_input, "", "", 0, 1, "  ", "B", "0", "1",
        none, []⟩).workflow_state = WorkflowState.main_input := by
  have h := claim_C3_validation_guards ⟨"/r", 1, 1⟩ ⟨none, true, [], fun _ => false⟩
    true true ⟨WorkflowState.main_input, "", "", 0, 1, "  ", "B", "0", "1", none, []⟩ rfl
  have hempty := h.1 (by decide)
  exact ⟨hempty, (h.2.2.2.1 hempty).1⟩

/-- C3 as stated is false on the code: `_update_current_values`
swallows the `ValueError` from unparsable depth text and keeps the
previous values, so when those previous values pass the checks no
validation error is surfaced and the state transition to positioning
happens anyway. -/
theorem claim_C3_counterexample :
    pyFloat? "abc" = none ∧
    (validate_inputs ⟨WorkflowState.main_input, "", "", 0, 1, "P", "B", "abc", "0.50",
      none, []⟩).1 = true ∧
    (on_ok_clicked ⟨"/r", 1, 1⟩ ⟨none, true, [], fun _ => false⟩ true true
      ⟨WorkflowState.main_input, "", "", 0, 1, "P", "B", "abc", "0.50",
        none, []⟩).workflow_state = WorkflowState.positioning := by
  refine ⟨by decide, by decide, by decide⟩

/-- C4: on a successful save the auto-advance writes exactly
`old depth_to` into the from-field and `old depth_to + segment_length`
into the to-field (two-decimal rendering; parsed back they are exactly
those values whenever they are whole hundredths), returning to
positioning; and no non-input operation other than the auto-advance
ever changes the from-field or the stored `current_depth_from`. -/
theorem claim_C4_depth_auto_advance (cfg : UiConfig) (env : WorkflowEnv) (w : MainWindow)
    (hx : 0 ≤ w.current_depth_to)
    (hseg : 0 ≤ w.current_depth_to + cfg.default_segment_length)
    (hden : (w.current_depth_to * 100).den = 1)
    (hden2 : ((w.current_depth_to + cfg.default_segment_length) * 100).den = 1) :
    (advance_to_next_segment cfg w).depth_from_text = format2 w.current_depth_to ∧
    (advance_to_next_segment cfg w).depth_to_text =
      format2 (w.current_depth_to + cfg.default_segment_length) ∧
    (advance_to_next_segment cfg w).workflow_state = WorkflowState.positioning ∧
    pyFloat? (advance_to_next_segment cfg w).depth_from_text = some w.current_depth_to ∧
    pyFloat? (advance_to_next_segment cfg w).depth_to_text =
      some (w.current_depth_to + cfg.default_segment_length) ∧
    (on_no_clicked w).depth_from_text = w.depth_from_text ∧
    (on_no_clicked w).current_depth_from = w.current_depth_from ∧
    (on_plus_clicked cfg w).depth_from_text = w.depth_from_text ∧
    (on_plus_clicked cfg w).current_depth_from = w.current_depth_from ∧
    (on_minus_clicked cfg w).depth_from_text = w.depth_from_text ∧
    (on_minus_clicked cfg w).current_depth_from = w.current_depth_from ∧
    (discard_images w).depth_from_text = w.depth_from_text ∧
    (return_to_positioning w).depth_from_text = w.depth_from_text ∧
    ((save_images cfg env w).depth_from_text = w.depth_from_text ∨
      (save_images cfg env w).depth_from_text = format2 w.current_depth_to) := by
  refine ⟨rfl, rfl, rfl,
    pyFloat_format2 _ hx hden, pyFloat_format2 _ hseg hden2,
    ?_, ?_, ?_, ?_, ?_, ?_, rfl, rfl, ?_⟩
  · unfold on_no_clicked discard_images
    split_ifs <;> rfl
  · unfold on_no_clicked discard_images
    split_ifs <;> rfl
  · unfold on_plus_clicked
    split <;> rfl
  · unfold on_plus_clicked
    split <;> rfl
  · unfold on_minus_clicked
    split <;> rfl
  · unfold on_minus_clicked
    split <;> rfl
  · unfold save_images
    split_ifs with h1
    · exact Or.inl rfl
    · unfold save_stereo_pair
      by_cases hs : env.saveOk
      · exact Or.inr (by simp [hs, advance_to_next_segment])
      · exact Or.inl (by simp [hs])

theorem claim_C4_depth_auto_advance_witness :
    (advance_to_next_segment ⟨"/r", 2, 1⟩
      ⟨WorkflowState.saving, "P", "B", 0, 1, "P", "B", "0", "1", none, []⟩).depth_from_text =
      format2 1 ∧
    pyFloat? (advance_to_next_segment ⟨"/r", 2, 1⟩
      ⟨WorkflowState.saving, "P", "B", 0, 1, "P", "B", "0", "1", none, []⟩).depth_from_text =
      some 1 ∧
    pyFloat? (advance_to_next_segment ⟨"/r", 2, 1⟩
      ⟨WorkflowState.saving, "P", "B", 0, 1, "P", "B", "0", "1", none, []⟩).depth_to_text =
      some (1 + 2 : ℚ) := by
  have h := claim_C4_depth_auto_advance ⟨"/r", 2, 1⟩ ⟨none, true, [], fun _ => false⟩
    ⟨WorkflowState.saving, "P", "B", 0, 1, "P", "B", "0", "1", none, []⟩
    (by norm_num) (by norm_num)
    (by rw [show ((1 : ℚ) * 100) = 100 from by norm_num]; rfl)
    (by rw [show (((1 : ℚ) + 2) * 100) = 300 from by norm_num]; rfl)
  exact ⟨h.1, h.2.2.2.1, h.2.2.2.2.1⟩

/-- C5: rejecting either reviewed channel (including accepting channel
1 and then rejecting channel 2) discards the whole pending pair: the
pending images are cleared, no file is written to primary storage, the
state returns to positioning, and the depth range (both the stored
values and the input fields) is unchanged. -/
theorem claim_C5_reject_discards_pair (cfg : UiConfig) (env : WorkflowEnv)
    (acc1 acc2 : Bool) (w : MainWindow) (h : acc1 = false ∨ acc2 = false) :
    (start_image_review cfg env acc1 acc2 w).captured_images = none ∧
    (start_image_review cfg env acc1 acc2 w).workflow_state = WorkflowState.positioning ∧
    (start_image_review cfg env acc1 acc2 w).written_files = w.written_files ∧
    (start_image_review cfg env acc1 acc2 w).depth_from_text = w.depth_from_text ∧
    (start_image_review cfg env acc1 acc2 w).depth_to_text = w.depth_to_text ∧
    (start_image_review cfg env acc1 acc2 w).current_depth_from = w.current_depth_from ∧
    (start_image_review cfg env acc1 acc2 w).current_depth_to = w.current_depth_to := by
  rcases h with rfl | rfl
  · simp [start_image_review, discard_images]
  · cases acc1 <;>
      simp [start_image_review, review_camera2, discard_images]

theorem claim_C5_reject_discards_pair_witness :
    (start_image_review ⟨"/r", 1, 1⟩ ⟨none, true, [], fun _ => false⟩ true false
      ⟨WorkflowState.reviewing_cam1, "P", "B", 0, 1, "P", "B", "0.00", "0.50",
        some (7, 8), []⟩).captured_images = none ∧
    (start_image_review ⟨"/r", 1, 1⟩ ⟨none, true, [], fun _ => false⟩ true false
      ⟨WorkflowState.reviewing_cam1, "P", "B", 0, 1, "P", "B", "0.00", "0.50",
        some (7, 8), []⟩).written_files = [] := by
  have h := claim_C5_reject_discards_pair ⟨"/r", 1, 1⟩ ⟨none, true, [], fun _ => false⟩
    true false
    ⟨WorkflowState.reviewing_cam1, "P", "B", 0, 1, "P", "B", "0.00", "0.50",
      some (7, 8), []⟩ (Or.inr rfl)
  exact ⟨h.1, h.2.2.1⟩

end StereoCore
